import Mathlib

/-!
Shallow embedding of the RiceGuard inference pipeline (`src/app.py`) and
proofs about its label resolution, preprocessing and model-loading logic.

Probabilities are modelled as rationals (`ℚ`); Python strings as Lean
`String`/`List Char`; Python `dict` as an insertion-ordered association
list; runtime exceptions (e.g. `IndexError`, numpy errors on empty input)
as `Option`/`Except` failure values.
-/

namespace RiceGuard

/-- One value of the `disease_info` dictionary (`src/app.py` lines 31-74). -/
structure DiseaseEntry where
  description : String
  symptoms : String
  treatment : String
  icon : String
deriving DecidableEq, Repr

/-- The `disease_info` dictionary of `src/app.py` (lines 31-74), as an
insertion-ordered association list (Python 3.7+ dicts preserve insertion
order, which `list(disease_info.keys())` relies on). -/
def disease_info : List (String × DiseaseEntry) :=
  [ ("Bacterial Leaf Blight",
      { description := "Causes yellowing and wilting of leaves. Can significantly reduce yield."
        symptoms := "Water-soaked streaks, yellow lesions, milky dew drops."
        treatment := "Use copper-based fungicides and avoid excessive nitrogen fertilizer."
        icon := "🦠" }),
    ("Brown Spot",
      { description := "Fungal disease causing brown circular spots on leaves."
        symptoms := "Round to oval brown spots with yellow halo."
        treatment := "Improve soil nutrients and treat seeds with fungicides."
        icon := "🍂" }),
    ("Leaf Blast",
      { description := "Diamond-shaped lesions appear on rice leaves."
        symptoms := "Spindle-shaped spots with gray centers."
        treatment := "Use systemic fungicides and resistant varieties."
        icon := "🔥" }),
    ("Leaf Smut",
      { description := "Black powdery masses on leaves."
        symptoms := "Small black linear lesions on leaf blades."
        treatment := "Remove infected debris and apply fungicides if severe."
        icon := "🌑" }),
    ("Narrow Brown Leaf Spot",
      { description := "Long narrow brown streaks, usually late season."
        symptoms := "Linear brown streaks on leaves."
        treatment := "Use resistant varieties and balanced fertilization."
        icon := "🌾" }),
    ("Healthy Rice Leaf",
      { description := "Plant is healthy with no visible disease."
        symptoms := "Green, vibrant leaves with no spots."
        treatment := "Continue regular monitoring and maintenance."
        icon := "✅" }),
    ("Unknown",
      { description := "Disease not recognized by the system."
        symptoms := "Please consult an agricultural expert."
        treatment := "Avoid applying random chemicals; seek guidance."
        icon := "❓" }) ]

/-- The catalog entry stored under the key `"Unknown"`; `src/app.py` line 208
uses it as the default of `disease_info.get(label, disease_info["Unknown"])`. -/
def unknownEntry : DiseaseEntry :=
  { description := "Disease not recognized by the system."
    symptoms := "Please consult an agricultural expert."
    treatment := "Avoid applying random chemicals; seek guidance."
    icon := "❓" }

/-- Python `str.strip()` on the character list: drop leading and trailing
whitespace (used on the predicted label at `src/app.py` line 206). -/
def stripChars (l : List Char) : List Char :=
  ((l.dropWhile Char.isWhitespace).reverse.dropWhile Char.isWhitespace).reverse

/-- Python `str.strip()` lifted to `String`. -/
def pyStrip (s : String) : String := ⟨stripChars s.data⟩

/-- `np.argmax` on a list: index of the maximum value, first occurrence in
scan order on ties (numpy's documented tie-breaking; called at
`src/app.py` line 205). Returns 0 on the empty list, which numpy rejects
at runtime; callers guard with nonemptiness. -/
def argmax : List ℚ → ℕ
  | [] => 0
  | x :: xs => if ∀ y ∈ xs, y ≤ x then 0 else argmax xs + 1

/-- `np.max` on a list (called at `src/app.py` line 207); 0 on the empty
list, which numpy rejects at runtime. -/
def listMax : List ℚ → ℚ
  | [] => 0
  | x :: xs => xs.foldl max x

/-- Python `round` to an integer: round half to even (banker's rounding),
as Python's built-in `round` does on exact values. -/
def pyRoundInt (q : ℚ) : ℤ :=
  if q - ⌊q⌋ < 1/2 then ⌊q⌋
  else if 1/2 < q - ⌊q⌋ then ⌊q⌋ + 1
  else if ⌊q⌋ % 2 = 0 then ⌊q⌋ else ⌊q⌋ + 1

/-- Python `round(x, 2)`: round to two decimal places
(`src/app.py` line 207). -/
def pyRound2 (x : ℚ) : ℚ := (pyRoundInt (x * 100) : ℚ) / 100

/-- Python substring containment `needle in hay` on strings, as list-infix
containment of the character lists (used by `"Healthy" in label` at
`src/app.py` line 216). -/
def containsSub (needle hay : String) : Bool :=
  decide (needle.data <:+: hay.data)

/-- The structured outcome assembled in the analysis branch of `main`
(`src/app.py` lines 205-219): resolved label, confidence percentage,
catalog entry, and the healthy flag driving the success/error banner. -/
structure PredictionResult where
  label : String
  confidence : ℚ
  info : DiseaseEntry
  isHealthy : Bool
deriving DecidableEq, Repr

/-- Catalog lookup on a raw predicted label, exactly as composed at
`src/app.py` lines 206 and 208: strip surrounding whitespace, then the
(case-sensitive) `dict.get` with the `"Unknown"` entry as default. -/
def catalogEntryFor (raw : String) : DiseaseEntry :=
  (disease_info.lookup (pyStrip raw)).getD unknownEntry

/-- Result resolution, `src/app.py` lines 205-219 of `main`:
`idx = np.argmax(pred[0])`, `label = class_names[idx].strip()`,
`confidence = round(100 * np.max(pred[0]), 2)`,
`info = disease_info.get(label, disease_info["Unknown"])`, and
`isHealthy` decided by the substring test `"Healthy" in label`.
`none` models the uncaught runtime errors: numpy's rejection of an empty
vector and the unchecked `class_names[idx]` raising `IndexError`. -/
def resolveResult (pred0 : List ℚ) (class_names : List String) :
    Option PredictionResult :=
  match pred0 with
  | [] => none
  | _ :: _ =>
    match class_names.get? (argmax pred0) with
    | none => none
    | some raw =>
      let label := pyStrip raw
      some { label := label
             confidence := pyRound2 (100 * listMax pred0)
             info := (disease_info.lookup label).getD unknownEntry
             isHealthy := containsSub "Healthy" label }

/-- The loaded Keras model, opaque except for its output dimensionality
(the length of `pred[0]`). -/
structure KerasModel where
  outputDim : ℕ
deriving DecidableEq, Repr

/-- `load_model` of `src/app.py` lines 80-90: `(None, None)` when the model
file is absent; otherwise the loaded model together with the class-name
list read from `class_names.json` when that file exists, else
`list(disease_info.keys())`. The filesystem is passed in as the optional
contents of the two files. No validation relates the class-name list's
length to the model's output dimensionality. -/
def load_model (modelOnDisk : Option KerasModel)
    (classNamesFile : Option (List String)) :
    Option KerasModel × Option (List String) :=
  match modelOnDisk with
  | none => (none, none)
  | some m => (some m, some (classNamesFile.getD (disease_info.map Prod.fst)))

/-- A decoded RGB bitmap: dimensions plus an 8-bit pixel function. `Fin 256`
channels model the byte range guaranteed by `PIL ... .convert("RGB")`. -/
structure RGBImage where
  width : ℕ
  height : ℕ
  px : ℕ → ℕ → Fin 256 × Fin 256 × Fin 256

/-- The failure kind of `PIL.Image.open` on bytes that are not a decodable
image (corrupt, wrong format, zero-length): `PIL.UnidentifiedImageError`.
`preprocess_image` (`src/app.py` lines 95-99) installs no handler, so this
is exactly the error that escapes it. -/
inductive DecodeError where
  | unidentifiedImage
deriving DecidableEq, Repr

/-- `img.resize((224, 224))` at `src/app.py` line 97, modelled by the
external resampler's contract: the result has exactly the requested
dimensions and every pixel value stays in the source's byte range
(realized here by sampling source pixels; the `Fin 256` channel type
carries the range). -/
def resizeImage (img : RGBImage) (w h : ℕ) : RGBImage :=
  { width := w, height := h
    px := fun i j => img.px (i * img.height / h) (j * img.width / w) }

/-- `np.array(img) / 255.0` at `src/app.py` line 98: the H×W×3 array of
channel values scaled from [0,255] to [0,1]. -/
def imageToArray (img : RGBImage) : List (List (List ℚ)) :=
  (List.range img.height).map fun i =>
    (List.range img.width).map fun j =>
      [((img.px i j).1.val : ℚ) / 255,
       ((img.px i j).2.1.val : ℚ) / 255,
       ((img.px i j).2.2.val : ℚ) / 255]

/-- `preprocess_image` of `src/app.py` lines 95-99: decode (PIL
`Image.open(...).convert("RGB")`, passed in as the decoder's result
function), resize to 224×224, scale to [0,1], and prepend the batch
dimension via `np.expand_dims(..., axis=0)`. A failed decode raises
`UnidentifiedImageError`, modelled by `Except.error`. -/
def preprocess_image (decode : List ℕ → Option RGBImage) (bytes : List ℕ) :
    Except DecodeError (List (List (List (List ℚ)))) :=
  match decode bytes with
  | none => .error .unidentifiedImage
  | some img => .ok [imageToArray (resizeImage img 224 224)]

/-! ### Helper lemmas: `argmax` -/

lemma argmax_le_getD (ps : List ℚ) :
    ∀ j, j < ps.length → ps.getD j 0 ≤ ps.getD (argmax ps) 0 := by
  induction ps with
  | nil => intro j hj; simp at hj
  | cons x xs ih =>
    intro j hj
    by_cases hall : ∀ y ∈ xs, y ≤ x
    · rw [argmax, if_pos hall]
      cases j with
      | zero => simp
      | succ j =>
        have hj' : j < xs.length := by simpa using hj
        simp only [List.getD_cons_succ, List.getD_cons_zero]
        have hm : xs.getD j 0 ∈ xs := by
          rw [List.getD_eq_getElem _ _ hj']
          exact List.getElem_mem hj'
        exact hall _ hm
    · rw [argmax, if_neg hall]
      push_neg at hall
      obtain ⟨y, hy, hxy⟩ := hall
      cases j with
      | zero =>
        simp only [List.getD_cons_zero, List.getD_cons_succ]
        obtain ⟨k, hk, hky⟩ := List.mem_iff_getElem.mp hy
        have hle := ih k hk
        rw [List.getD_eq_getElem _ _ hk, hky] at hle
        exact le_of_lt (lt_of_lt_of_le hxy hle)
      | succ j =>
        simp only [List.getD_cons_succ]
        exact ih j (by simpa using hj)

lemma argmax_lt_length (ps : List ℚ) (h : ps ≠ []) : argmax ps < ps.length := by
  induction ps with
  | nil => exact absurd rfl h
  | cons x xs ih =>
    by_cases hall : ∀ y ∈ xs, y ≤ x
    · rw [argmax, if_pos hall]; simp
    · rw [argmax, if_neg hall]
      have hxs : xs ≠ [] := by
        rintro rfl
        exact hall (by simp)
      simpa using Nat.succ_lt_succ (ih hxs)

lemma argmax_first_occurrence (ps : List ℚ) :
    ∀ j, j < argmax ps → ps.getD j 0 < ps.getD (argmax ps) 0 := by
  induction ps with
  | nil => intro j hj; simp [argmax] at hj
  | cons x xs ih =>
    intro j hj
    by_cases hall : ∀ y ∈ xs, y ≤ x
    · rw [argmax, if_pos hall] at hj
      exact absurd hj (Nat.not_lt_zero j)
    · rw [argmax, if_neg hall] at hj ⊢
      push_neg at hall
      obtain ⟨y, hy, hxy⟩ := hall
      cases j with
      | zero =>
        simp only [List.getD_cons_zero, List.getD_cons_succ]
        obtain ⟨k, hk, hky⟩ := List.mem_iff_getElem.mp hy
        have hle := argmax_le_getD xs k hk
        rw [List.getD_eq_getElem _ _ hk, hky] at hle
        exact lt_of_lt_of_le hxy hle
      | succ j =>
        simp only [List.getD_cons_succ]
        exact ih j (Nat.lt_of_succ_lt_succ hj)

/-! ### Helper lemmas: `listMax` -/

lemma foldl_max_le {b : ℚ} :
    ∀ (l : List ℚ) (a : ℚ), a ≤ b → (∀ x ∈ l, x ≤ b) → l.foldl max a ≤ b := by
  intro l
  induction l with
  | nil => intro a ha _; simpa using ha
  | cons x xs ih =>
    intro a ha hl
    simp only [List.foldl_cons]
    exact ih _ (max_le ha (hl x (by simp))) fun y hy => hl y (by simp [hy])

lemma le_foldl_max : ∀ (l : List ℚ) (a : ℚ), a ≤ l.foldl max a := by
  intro l
  induction l with
  | nil => intro a; simp
  | cons x xs ih =>
    intro a
    simp only [List.foldl_cons]
    exact le_trans (le_max_left a x) (ih (max a x))

lemma listMax_le {b : ℚ} (ps : List ℚ) (h : ps ≠ []) (hb : ∀ x ∈ ps, x ≤ b) :
    listMax ps ≤ b := by
  cases ps with
  | nil => exact absurd rfl h
  | cons x xs =>
    rw [listMax]
    exact foldl_max_le xs x (hb x (by simp)) fun y hy => hb y (by simp [hy])

lemma listMax_nonneg (ps : List ℚ) (h : ps ≠ []) (hb : ∀ x ∈ ps, 0 ≤ x) :
    0 ≤ listMax ps := by
  cases ps with
  | nil => exact absurd rfl h
  | cons x xs =>
    rw [listMax]
    exact le_trans (hb x (by simp)) (le_foldl_max xs x)

/-! ### Helper lemmas: Python rounding -/

lemma pyRoundInt_nonneg {q : ℚ} (h : 0 ≤ q) : 0 ≤ pyRoundInt q := by
  have hf : (0 : ℤ) ≤ ⌊q⌋ := Int.floor_nonneg.mpr h
  unfold pyRoundInt
  split_ifs <;> omega

lemma pyRoundInt_le {q : ℚ} {n : ℤ} (h : q ≤ (n : ℚ)) : pyRoundInt q ≤ n := by
  have hf : ⌊q⌋ ≤ n := by
    have := Int.floor_le_floor h
    rwa [Int.floor_intCast] at this
  have hfq : (⌊q⌋ : ℚ) ≤ q := Int.floor_le q
  unfold pyRoundInt
  split_ifs with h1 h2 h3
  · exact hf
  · have hlt : (⌊q⌋ : ℚ) < q := by linarith
    have : ⌊q⌋ < n := by exact_mod_cast lt_of_lt_of_le hlt h
    omega
  · exact hf
  · have hlt : (⌊q⌋ : ℚ) < q := by linarith
    have : ⌊q⌋ < n := by exact_mod_cast lt_of_lt_of_le hlt h
    omega

lemma pyRound2_nonneg {x : ℚ} (h : 0 ≤ x) : 0 ≤ pyRound2 x := by
  unfold pyRound2
  have := pyRoundInt_nonneg (by positivity : (0:ℚ) ≤ x * 100)
  positivity

lemma pyRound2_le_100 {x : ℚ} (h : x ≤ 100) : pyRound2 x ≤ 100 := by
  have hq : x * 100 ≤ ((10000 : ℤ) : ℚ) := by push_cast; linarith
  have := pyRoundInt_le hq
  unfold pyRound2
  rw [div_le_iff₀ (by norm_num : (0:ℚ) < 100)]
  calc (pyRoundInt (x * 100) : ℚ) ≤ (10000 : ℤ) := by exact_mod_cast this
    _ = 100 * 100 := by norm_num

/-! ### Helper lemmas: `stripChars` -/

lemma dropWhile_append_of_all {p : Char → Bool} {w l : List Char}
    (hw : ∀ c ∈ w, p c = true) :
    (w ++ l).dropWhile p = l.dropWhile p := by
  have hnil : w.dropWhile p = [] := List.dropWhile_eq_nil_iff.mpr hw
  rw [List.dropWhile_append, hnil]
  simp

lemma stripChars_pad {wl wr d : List Char}
    (hwl : ∀ c ∈ wl, c.isWhitespace = true)
    (hwr : ∀ c ∈ wr, c.isWhitespace = true) :
    stripChars (wl ++ d ++ wr) = stripChars d := by
  unfold stripChars
  rw [List.append_assoc, dropWhile_append_of_all hwl]
  by_cases hd : d.dropWhile Char.isWhitespace = []
  · have hall : ∀ c ∈ d, c.isWhitespace = true := List.dropWhile_eq_nil_iff.mp hd
    have h2 : (d ++ wr).dropWhile Char.isWhitespace = [] :=
      List.dropWhile_eq_nil_iff.mpr fun c hc => by
        rcases List.mem_append.mp hc with h | h
        · exact hall c h
        · exact hwr c h
    rw [h2, hd]
  · rw [List.dropWhile_append, if_neg (by simpa [List.isEmpty_iff] using hd),
      List.reverse_append, dropWhile_append_of_all
        (fun c hc => hwr c (List.mem_reverse.mp hc))]

/-! ### Spec-side definition for the refinement comparison of claim C3 -/

/-- Modelled from the spec: the claim's healthy test — the resolved label
contains the healthy-indicating token as a substring, matched
case-insensitively. Stated from the spec's words only, to be compared with
the code's `containsSub "Healthy" label` test. -/
def specHealthyTokenCI (label : String) : Bool :=
  decide ("healthy".data <:+: label.data.map Char.toLower)

/-! ### Claim theorems -/

/-- C1, counterexample: with probability vector `[1]`, the raw label
`"leaf blast"` resolves to the `Unknown` catalog entry while `"Leaf Blast"`
resolves to the Leaf Blast entry — two labels differing only in case do
NOT resolve to the same catalog entry, refuting the claim's
case-insensitivity. -/
theorem resolve_case_variants_differ_cex :
    (resolveResult [1] ["leaf blast"]).map (fun r => r.info) = some unknownEntry ∧
    (resolveResult [1] ["Leaf Blast"]).map (fun r => r.info) =
      some { description := "Diamond-shaped lesions appear on rice leaves."
             symptoms := "Spindle-shaped spots with gray centers."
             treatment := "Use systemic fungicides and resistant varieties."
             icon := "🔥" } ∧
    unknownEntry ≠
      ({ description := "Diamond-shaped lesions appear on rice leaves."
         symptoms := "Spindle-shaped spots with gray centers."
         treatment := "Use systemic fungicides and resistant varieties."
         icon := "🔥" } : DiseaseEntry) :=
  ⟨by decide, by decide, by decide⟩

/-- C1, amended: the catalog lookup performed by result resolution first
trims surrounding whitespace from the label (labels differing only in
surrounding whitespace resolve to the same entry), but the subsequent
dictionary lookup is case-SENSITIVE, so case-differing labels need not
resolve to the same entry; the lookup used by resolution is exactly
strip-then-exact-`dict.get`. -/
theorem catalog_lookup_trims_whitespace :
    (∀ (s : String) (wl wr : List Char),
        (∀ c ∈ wl, c.isWhitespace = true) →
        (∀ c ∈ wr, c.isWhitespace = true) →
        catalogEntryFor ⟨wl ++ s.data ++ wr⟩ = catalogEntryFor s) ∧
    (∀ (ps : List ℚ) (names : List String) (raw : String) (r : PredictionResult),
        names.get? (argmax ps) = some raw →
        resolveResult ps names = some r →
        r.info = catalogEntryFor raw) := by
  constructor
  · intro s wl wr hwl hwr
    unfold catalogEntryFor pyStrip
    have hdata : (⟨wl ++ s.data ++ wr⟩ : String).data = wl ++ s.data ++ wr := rfl
    rw [hdata, stripChars_pad hwl hwr]
  · intro ps names raw r hget hres
    cases ps with
    | nil => simp [resolveResult] at hres
    | cons x xs =>
      unfold resolveResult at hres
      rw [hget] at hres
      cases Option.some.inj hres
      rfl

/-- C1, witness for the amended theorem at a concrete padded label. -/
theorem catalog_lookup_trims_whitespace_witness :
    catalogEntryFor ⟨[' '] ++ "Leaf Blast".data ++ [' ', '\t']⟩ =
      catalogEntryFor "Leaf Blast" :=
  catalog_lookup_trims_whitespace.1 "Leaf Blast" [' '] [' ', '\t']
    (by decide) (by decide)

/-- C2: `argmax` lands inside the vector, its value is a maximum of the
vector, every strictly earlier position is strictly below it (so ties go to
the lowest index, first occurrence in scan order), and resolution returns
the (stripped) class name at exactly that index. -/
theorem argmax_selects_first_maximum (ps : List ℚ) (h : ps ≠ []) :
    argmax ps < ps.length ∧
    (∀ j, j < ps.length → ps.getD j 0 ≤ ps.getD (argmax ps) 0) ∧
    (∀ j, j < argmax ps → ps.getD j 0 < ps.getD (argmax ps) 0) ∧
    (∀ (names : List String) (raw : String),
        names.get? (argmax ps) = some raw →
        (resolveResult ps names).map PredictionResult.label = some (pyStrip raw)) := by
  refine ⟨argmax_lt_length ps h, argmax_le_getD ps, argmax_first_occurrence ps, ?_⟩
  intro names raw hget
  cases ps with
  | nil => exact absurd rfl h
  | cons x xs =>
    unfold resolveResult
    rw [hget]
    rfl

/-- C2, witness on a vector with a tie between indices 1 and 2. -/
theorem argmax_selects_first_maximum_witness :
    argmax [(1:ℚ), 2, 2] < ([(1:ℚ), 2, 2]).length ∧
    (∀ j, j < ([(1:ℚ), 2, 2]).length →
      [(1:ℚ), 2, 2].getD j 0 ≤ [(1:ℚ), 2, 2].getD (argmax [(1:ℚ), 2, 2]) 0) ∧
    (∀ j, j < argmax [(1:ℚ), 2, 2] →
      [(1:ℚ), 2, 2].getD j 0 < [(1:ℚ), 2, 2].getD (argmax [(1:ℚ), 2, 2]) 0) ∧
    (∀ (names : List String) (raw : String),
        names.get? (argmax [(1:ℚ), 2, 2]) = some raw →
        (resolveResult [(1:ℚ), 2, 2] names).map PredictionResult.label =
          some (pyStrip raw)) :=
  argmax_selects_first_maximum [(1:ℚ), 2, 2] (by decide)

/-- C3, counterexample: a resolved label spelled `"healthy rice leaf"` gets
`isHealthy = false` from the code's case-sensitive `"Healthy" in label`
test, while the claim's case-insensitive containment holds of it — the
match is not case-insensitive. -/
theorem healthy_flag_not_case_insensitive_cex :
    (resolveResult [1] ["healthy rice leaf"]).map (fun r => r.isHealthy) =
      some false ∧
    (resolveResult [1] ["healthy rice leaf"]).map
        (fun r => specHealthyTokenCI r.label) = some true :=
  ⟨by decide, by decide⟩

/-- C3, amended: `isHealthy` is true iff the resolved label contains
`"Healthy"` as a substring under a case-SENSITIVE match (exact casing of
the token), still not an exact-equality check on the whole label. -/
theorem healthy_flag_iff_exact_cased_substring (ps : List ℚ)
    (names : List String) (r : PredictionResult)
    (hres : resolveResult ps names = some r) :
    r.isHealthy = true ↔ "Healthy".data <:+: r.label.data := by
  cases ps with
  | nil => simp [resolveResult] at hres
  | cons x xs =>
    unfold resolveResult at hres
    rcases hget : names.get? (argmax (x :: xs)) with _ | raw
    · rw [hget] at hres; simp at hres
    · rw [hget] at hres
      cases Option.some.inj hres
      simp [containsSub]

/-- C3, witness for the amended theorem on the healthy label. -/
theorem healthy_flag_iff_exact_cased_substring_witness :
    ∃ r, resolveResult [(1:ℚ)] ["Healthy Rice Leaf"] = some r ∧
      (r.isHealthy = true ↔ "Healthy".data <:+: r.label.data) :=
  ⟨_, rfl, healthy_flag_iff_exact_cased_substring [(1:ℚ)] ["Healthy Rice Leaf"] _ rfl⟩

/-- C4: when the bytes cannot be decoded as an image, `preprocess_image`
fails with exactly the decoder's specific failure kind
(`UnidentifiedImageError`, the spec's `InvalidImageError`) — it installs no
handler that could replace it with anything else — and never returns any
tensor. -/
theorem preprocess_undecodable_fails (decode : List ℕ → Option RGBImage)
    (bytes : List ℕ) (h : decode bytes = none) :
    preprocess_image decode bytes = Except.error DecodeError.unidentifiedImage ∧
    ∀ t, preprocess_image decode bytes ≠ Except.ok t := by
  unfold preprocess_image
  rw [h]
  exact ⟨rfl, fun t h2 => Except.noConfusion h2⟩

/-- C4, witness: a decoder rejecting everything, applied to empty bytes. -/
theorem preprocess_undecodable_fails_witness :
    preprocess_image (fun _ => none) [] =
      Except.error DecodeError.unidentifiedImage :=
  (preprocess_undecodable_fails (fun _ => none) [] rfl).1

/-- C5, counterexample: `load_model` succeeds (returns the model and the
class-name list, with no error of any kind) even when the class-index
length (2) differs from the model's output dimensionality (4) — the
claimed fatal `ConfigurationError` does not exist in the code. -/
theorem load_model_accepts_dim_mismatch_cex :
    load_model (some ⟨4⟩) (some ["Leaf Blast", "Brown Spot"]) =
      (some ⟨4⟩, some ["Leaf Blast", "Brown Spot"]) ∧
    (["Leaf Blast", "Brown Spot"] : List String).length ≠
      (⟨4⟩ : KerasModel).outputDim :=
  ⟨rfl, by decide⟩

/-- C5, amended: startup performs no validation of the class index against
the model's output dimensionality; `load_model` returns the model and the
class-name list unconditionally, even under a length mismatch, which can
only surface later during resolution (e.g. as an out-of-range access). -/
theorem load_model_never_checks_dimensions (m : KerasModel)
    (cns : List String) (_h : cns.length ≠ m.outputDim) :
    load_model (some m) (some cns) = (some m, some cns) := rfl

/-- C5, witness for the amended theorem at a concrete mismatch. -/
theorem load_model_never_checks_dimensions_witness :
    load_model (some ⟨3⟩) (some ["Leaf Smut"]) = (some ⟨3⟩, some ["Leaf Smut"]) :=
  load_model_never_checks_dimensions ⟨3⟩ ["Leaf Smut"] (by decide)

/-- C6: whenever inference produced a vector whose top label resolves to no
catalog key (after the code's stripping), resolution still succeeds and
hands back the `Unknown` entry with its generic guidance text — it can
return no error in this situation because the lookup's default is total. -/
theorem unresolved_label_yields_unknown (ps : List ℚ) (names : List String)
    (raw : String) (h : ps ≠ [])
    (hget : names.get? (argmax ps) = some raw)
    (hmiss : disease_info.lookup (pyStrip raw) = none) :
    ∃ r, resolveResult ps names = some r ∧ r.info = unknownEntry := by
  cases ps with
  | nil => exact absurd rfl h
  | cons x xs =>
    refine ⟨{ label := pyStrip raw
              confidence := pyRound2 (100 * listMax (x :: xs))
              info := (disease_info.lookup (pyStrip raw)).getD unknownEntry
              isHealthy := containsSub "Healthy" (pyStrip raw) }, ?_, ?_⟩
    · unfold resolveResult
      rw [hget]
    · simp [hmiss]

/-- C6, witness: a label absent from the catalog under the code's
normalization. -/
theorem unresolved_label_yields_unknown_witness :
    ∃ r, resolveResult [(1:ℚ)] ["Tungro"] = some r ∧ r.info = unknownEntry :=
  unresolved_label_yields_unknown [(1:ℚ)] ["Tungro"] "Tungro"
    (by decide) (by decide) (by decide)

/-- C7: the reported confidence is `100 × max(probabilities)` rounded to
two decimal places, and it lies in `[0, 100]` whenever every probability
lies in `[0, 1]`. -/
theorem confidence_formula_and_bounds (ps : List ℚ) (names : List String)
    (r : PredictionResult) (hres : resolveResult ps names = some r)
    (hb : ∀ x ∈ ps, 0 ≤ x ∧ x ≤ 1) :
    r.confidence = pyRound2 (100 * listMax ps) ∧
    0 ≤ r.confidence ∧ r.confidence ≤ 100 := by
  cases ps with
  | nil => simp [resolveResult] at hres
  | cons x xs =>
    have hne : (x :: xs : List ℚ) ≠ [] := by simp
    have h0 : 0 ≤ listMax (x :: xs) :=
      listMax_nonneg _ hne fun y hy => (hb y hy).1
    have h1 : listMax (x :: xs) ≤ 1 :=
      listMax_le _ hne fun y hy => (hb y hy).2
    have hconf : r.confidence = pyRound2 (100 * listMax (x :: xs)) := by
      unfold resolveResult at hres
      rcases hget : names.get? (argmax (x :: xs)) with _ | raw
      · rw [hget] at hres; simp at hres
      · rw [hget] at hres
        cases Option.some.inj hres
        rfl
    refine ⟨hconf, ?_, ?_⟩
    · rw [hconf]
      exact pyRound2_nonneg (by linarith)
    · rw [hconf]
      exact pyRound2_le_100 (by linarith)

/-- C7, witness on the one-hot vector `[1]`. -/
theorem confidence_formula_and_bounds_witness :
    ∃ r, resolveResult [(1:ℚ)] ["Leaf Blast"] = some r ∧
      (r.confidence = pyRound2 (100 * listMax [(1:ℚ)]) ∧
        0 ≤ r.confidence ∧ r.confidence ≤ 100) :=
  ⟨_, rfl, confidence_formula_and_bounds [(1:ℚ)] ["Leaf Blast"] _ rfl (by decide)⟩

/-- C8: on any successfully decoded image of arbitrary dimensions, the
preprocessed tensor has shape exactly (1, 224, 224, 3) and every value lies
in `[0, 1]`. -/
theorem preprocess_shape_and_range (decode : List ℕ → Option RGBImage)
    (bytes : List ℕ) (img : RGBImage) (h : decode bytes = some img) :
    ∃ t, preprocess_image decode bytes = Except.ok t ∧
      t.length = 1 ∧
      ∀ a ∈ t, a.length = 224 ∧
        ∀ row ∈ a, row.length = 224 ∧
          ∀ pix ∈ row, pix.length = 3 ∧
            ∀ v ∈ pix, 0 ≤ v ∧ v ≤ 1 := by
  refine ⟨[imageToArray (resizeImage img 224 224)], ?_, rfl, ?_⟩
  · unfold preprocess_image
    rw [h]
  · intro a ha
    rw [List.mem_singleton] at ha
    subst ha
    have hchan : ∀ (c : Fin 256), 0 ≤ (c.val : ℚ) / 255 ∧ (c.val : ℚ) / 255 ≤ 1 := by
      intro c
      constructor
      · positivity
      · rw [div_le_one (by norm_num : (0:ℚ) < 255)]
        exact_mod_cast Fin.is_le c
    constructor
    · simp [imageToArray, resizeImage]
    · intro row hrow
      simp only [imageToArray, resizeImage, List.mem_map] at hrow
      obtain ⟨i, hi, rfl⟩ := hrow
      constructor
      · simp
      · intro pix hpix
        simp only [List.mem_map] at hpix
        obtain ⟨j, hj, rfl⟩ := hpix
        refine ⟨rfl, ?_⟩
        intro v hv
        simp only [List.mem_cons, List.not_mem_nil, or_false] at hv
        rcases hv with rfl | rfl | rfl
        · exact hchan _
        · exact hchan _
        · exact hchan _

/-- C8, witness: a decoder producing a constant 1×1 black image. -/
theorem preprocess_shape_and_range_witness :
    ∃ t, preprocess_image (fun _ => some ⟨1, 1, fun _ _ => (0, 0, 0)⟩) [] =
        Except.ok t ∧
      t.length = 1 ∧
      ∀ a ∈ t, a.length = 224 ∧
        ∀ row ∈ a, row.length = 224 ∧
          ∀ pix ∈ row, pix.length = 3 ∧
            ∀ v ∈ pix, 0 ≤ v ∧ v ≤ 1 :=
  preprocess_shape_and_range (fun _ => some ⟨1, 1, fun _ _ => (0, 0, 0)⟩) []
    ⟨1, 1, fun _ _ => (0, 0, 0)⟩ rfl

/-- C9: with the class-index file absent, `load_model` falls back to the
catalog's key ordering — the ordered list of `disease_info` keys, shown
concretely (Python dicts preserve insertion order). -/
theorem class_index_fallback_is_catalog_keys (m : KerasModel) :
    load_model (some m) none = (some m, some (disease_info.map Prod.fst)) ∧
    disease_info.map Prod.fst =
      ["Bacterial Leaf Blight", "Brown Spot", "Leaf Blast", "Leaf Smut",
       "Narrow Brown Leaf Spot", "Healthy Rice Leaf", "Unknown"] :=
  ⟨rfl, by decide⟩

/-- C10: `class_names[idx]` is unguarded, but `np.argmax` stays below the
probability vector's length, so resolution cannot go out of range whenever
the vector is at most as long as the class-name list; and for a vector
longer than the class-name list the out-of-range branch (`IndexError`,
modelled by `none`) is reachable at a concrete input. -/
theorem resolve_bounds_precondition :
    (∀ (ps : List ℚ) (names : List String), ps ≠ [] →
      ps.length ≤ names.length → ∃ r, resolveResult ps names = some r) ∧
    resolveResult [(0:ℚ), 1] ["Bacterial Leaf Blight"] = none := by
  constructor
  · intro ps names hne hlen
    cases ps with
    | nil => exact absurd rfl hne
    | cons x xs =>
      have hlt : argmax (x :: xs) < names.length :=
        lt_of_lt_of_le (argmax_lt_length _ (by simp)) hlen
      refine ⟨{ label := pyStrip (names.get ⟨argmax (x :: xs), hlt⟩)
                confidence := pyRound2 (100 * listMax (x :: xs))
                info := (disease_info.lookup
                  (pyStrip (names.get ⟨argmax (x :: xs), hlt⟩))).getD unknownEntry
                isHealthy := containsSub "Healthy"
                  (pyStrip (names.get ⟨argmax (x :: xs), hlt⟩)) }, ?_⟩
      unfold resolveResult
      rw [List.get?_eq_get hlt]
  · decide

/-- C10, witness: a vector no longer than the class-name list resolves. -/
theorem resolve_bounds_precondition_witness :
    ∃ r, resolveResult [(1:ℚ)] ["Brown Spot"] = some r :=
  resolve_bounds_precondition.1 [(1:ℚ)] ["Brown Spot"] (by decide) (by decide)

end RiceGuard
